import Mathlib

/-!
Verification development for the S.Y.N.Cvoice deterministic evaluation engine
(`src/guardrails_rules.py` and `src/predict.py`).

Strings are modelled by Lean `String` (a structure over `List Char`); Python
float arithmetic on the small decimal constants of the engine is modelled
exactly over `ℚ`.  The guardrail rule data (the `never_say` list and the
substitution map) is external configuration loaded from disk by
`guardrails_rules.py`; following the spec it is passed in explicitly as a
`Config` value, while every function below embeds the corresponding Python
function body.
-/

/-- ASCII whitespace recognised by Python `str.split` / `str.strip`
(space, tab, newline, carriage return, vertical tab, form feed). -/
def isWSp (c : Char) : Bool :=
  c == ' ' || c == '\t' || c == '\n' || c == '\r' || c == Char.ofNat 11 || c == Char.ofNat 12

/-- `startsB pat l` is true when `pat` is an initial segment of `l`. -/
def startsB : List Char → List Char → Bool
  | [], _ => true
  | _ :: _, [] => false
  | a :: as, b :: bs => a == b && startsB as bs

/-- `hasSub needle hay`: the Python substring containment `needle in hay`
(the empty needle is contained in everything). -/
def hasSub (needle : List Char) : List Char → Bool
  | [] => startsB needle []
  | c :: t => startsB needle (c :: t) || hasSub needle t

/-- Python `str.lower`, character by character. -/
def lowerS (s : String) : String := ⟨s.data.map Char.toLower⟩

/-- Python `needle in hay` on strings. -/
def strHasSub (hay needle : String) : Bool := hasSub needle.data hay.data

/-- Python `str.startswith` on strings. -/
def startsWithS (s pat : String) : Bool := startsB pat.data s.data

/-- Python `str.strip()` (drop leading and trailing whitespace). -/
def stripWS (l : List Char) : List Char :=
  ((l.dropWhile isWSp).reverse.dropWhile isWSp).reverse

/-- Python `str.split()` with no argument: split on whitespace runs,
discarding empty words.  `acc` holds the current word reversed. -/
def wordsAux (acc : List Char) : List Char → List (List Char)
  | [] => if acc.isEmpty then [] else [acc.reverse]
  | c :: cs =>
    if isWSp c then
      if acc.isEmpty then wordsAux [] cs else acc.reverse :: wordsAux [] cs
    else wordsAux (c :: acc) cs

/-- `_normalize` from src/predict.py on character data:
`" ".join(text.strip().lower().split())`. -/
def normData (l : List Char) : List Char :=
  List.intercalate [' '] (wordsAux [] (l.map Char.toLower))

/-- `_normalize` from src/predict.py. -/
def normStr (s : String) : String := ⟨normData s.data⟩

/-- Insertion into a Python `dict` represented as an insertion-ordered
association list: assigning to an existing key overwrites in place,
a new key is appended at the end. -/
def dictInsert (m : List (String × Bool)) (k : String) (v : Bool) : List (String × Bool) :=
  if k ∈ m.map Prod.fst then
    m.map (fun p => if p.1 = k then (k, v) else p)
  else
    m ++ [(k, v)]

/-- Python `dict` lookup (`d.get(k)`). -/
def lookupD : List (String × Bool) → String → Option Bool
  | [], _ => none
  | p :: m, k => if p.1 = k then some p.2 else lookupD m k

/-- The loop pattern shared by `rule_flags` and `behavior_flags` in
src/guardrails_rules.py: `out = {}` then `out[mk term] = f term` per term. -/
def buildFlags (terms : List String) (mk : String → String) (f : String → Bool) :
    List (String × Bool) :=
  terms.foldl (fun m t => dictInsert m (mk t) (f t)) []

/-- `rule_flags` from src/guardrails_rules.py, with the `never_say` rule list
(config data loaded from `trb_guardrails.yaml`) passed explicitly:
`out[f"blocked_term:{term}"] = term.lower() in text.lower()`. -/
def rule_flags (neverSay : List String) (text : String) : List (String × Bool) :=
  buildFlags neverSay (fun term => "blocked_term:" ++ term)
    (fun term => strHasSub (lowerS text) (lowerS term))

/-- The hardcoded `pressure_terms` list of `behavior_flags` in
src/guardrails_rules.py. -/
def pressure_terms : List String :=
  ["must", "now", "fix", "urgent", "immediately", "push through", "should"]

/-- `behavior_flags` from src/guardrails_rules.py:
`out[f"pressure:{term}"] = term in text.lower()`. -/
def behavior_flags (text : String) : List (String × Bool) :=
  buildFlags pressure_terms (fun term => "pressure:" ++ term)
    (fun term => strHasSub (lowerS text) term)

/-- `guidance` from src/guardrails_rules.py. -/
def guidance (ruleFlagDict : List (String × Bool)) : List String :=
  if ruleFlagDict.any (fun p => p.2) then
    ["Use **State** language (temporary) instead of identity language.",
     "Name **Signals** as information, not flaws or symptoms.",
     "Honor **Capacity** (offer options, remove urgency).",
     "Support **Regulation** without force (gentle, body-led).",
     "Add **Integration** (how to carry steadiness into the next moment)."]
  else
    ["Language feels invitational, shame-free, and choice-led.",
     "Optional: add one capacity line (e.g., “if it fits today”)."]

/-- `substitution_suggestions` from src/guardrails_rules.py, with the
substitution map (config data from `trb_guardrails.json`, an
insertion-ordered mapping) passed explicitly.  Only the code before the
first `return` of the function is reachable. -/
def substitution_suggestions (substitutions : List (String × String)) (text : String) :
    List String :=
  (substitutions.filter (fun bg => strHasSub (lowerS text) (lowerS bg.1))).map
    (fun bg => "Replace **" ++ bg.1 ++ "** → " ++ bg.2)

/-- `POSITIVE_SIGNALS` from src/predict.py. -/
def POSITIVE_SIGNALS : List (String × List String) :=
  [("state_based", ["state", "right now", "today", "in this moment", "temporary", "current"]),
   ("signal_based", ["signal", "signals", "information", "data point",
      "your system is sending", "your body is sending"]),
   ("capacity_honoring", ["capacity", "at your pace", "as you\x27re able",
      "what’s possible", "what is possible", "meet yourself where"]),
   ("regulation_focused", ["regulation", "regulate", "support regulation", "steady",
      "settle", "ground", "pause", "breathe"]),
   ("integration_oriented", ["integration", "carry this", "carry that",
      "into your next moment", "into life", "beyond this"]),
   ("choice_led", ["choose", "choice", "if it fits", "does that fit", "you can",
      "you’re allowed", "optional", "invite", "invitational"])]

/-- `TONE_TAGS` from src/predict.py. -/
def TONE_TAGS : List (String × List String) :=
  [("invitational", ["invite", "invitational", "you can", "you’re allowed",
      "if you want", "optional"]),
   ("shame_free", ["no shame", "without shame", "no judgment", "non-judgment", "gentle"]),
   ("body_led", ["body", "nervous system", "somatic", "breath", "breathe", "ground", "pause"]),
   ("non_urgent", ["at your pace", "when you\x27re ready", "no rush", "take your time", "slow"]),
   ("choice_led", ["choose", "choice", "if it fits", "does that fit", "you decide"])]

/-- `_count_hits` from src/predict.py: the number of phrases whose
lower-cased, stripped form is non-empty and contained in the normalized text. -/
def count_hits (text : String) (phrases : List String) : ℕ :=
  phrases.countP (fun p =>
    !(stripWS (p.data.map Char.toLower)).isEmpty &&
      hasSub (stripWS (p.data.map Char.toLower)) (normData text.data))

/-- The per-tag score formula inside `_score_tags` (src/predict.py line 111):
`min(0.45 + 0.18 * min(h, 3), 0.92)`. -/
def score_of_hits (h : ℕ) : ℚ := min (45/100 + 18/100 * ((min h 3 : ℕ) : ℚ)) (92/100)

/-- Stable insertion (descending by score): used to model the stable Python
`sort(key=score, reverse=True)`. -/
def insertD (x : String × ℚ) : List (String × ℚ) → List (String × ℚ)
  | [] => [x]
  | y :: ys => if y.2 ≤ x.2 then x :: y :: ys else y :: insertD x ys

/-- The stable descending Python sort by score. -/
def sortDesc (l : List (String × ℚ)) : List (String × ℚ) := l.foldr insertD []

/-- `_score_tags` from src/predict.py: tags with at least one hit, scored by
`score_of_hits`, sorted by score descending (stable). -/
def score_tags (text : String) (tagMap : List (String × List String)) : List (String × ℚ) :=
  sortDesc (tagMap.filterMap (fun g =>
    if 0 < count_hits text g.2 then some (g.1, score_of_hits (count_hits text g.2)) else none))

/-- `confidence_bucket` from src/predict.py (with its default cutoffs
`conf_high = 0.70`, `conf_med = 0.50`). -/
def confidence_bucket (conf : ℚ) : String :=
  if 7/10 ≤ conf then "high" else if 5/10 ≤ conf then "medium" else "low"

/-- `route_message` from src/predict.py. -/
def route_message (bucket : String) (ruleTriggered : Bool) (behaviorsCount : ℕ) : String :=
  if ruleTriggered then
    "Rule-triggered: revise language first (remove pressure/fixing/hustle). Then re-check."
  else if bucket = "high" ∧ 1 ≤ behaviorsCount then
    "High confidence: show tone behaviors + targeted suggestions. Human approves final copy."
  else if bucket = "high" ∨ bucket = "medium" then
    "Medium confidence: show top tags + ask 2 clarifying questions before recommending edits."
  else
    "Low confidence: insufficient signal. Ask for audience + intent + channel. Suggest substitutions."

/-- The guardrail rule data of src/guardrails_rules.py (external configuration:
the `never_say` list from `trb_guardrails.yaml` and the `substitutions`
mapping from `trb_guardrails.json`). -/
structure Config where
  neverSay : List String
  substitutions : List (String × String)
deriving DecidableEq

/-- The raw risk pair list built in `predict` (src/predict.py lines 156-165):
every triggered rule flag at score 0.99, then every triggered behavior flag
whose key starts with pressure/shame/urgency at score 0.90. -/
def risksRaw (cfg : Config) (text : String) : List (String × ℚ) :=
  ((rule_flags cfg.neverSay text).filter (fun p => p.2)).map (fun p => (p.1, (99/100 : ℚ)))
  ++ ((behavior_flags text).filter (fun p =>
        p.2 && (startsWithS p.1 "pressure" || startsWithS p.1 "shame" ||
          startsWithS p.1 "urgency"))).map (fun p => (p.1, (9/10 : ℚ)))

/-- The de-duplication loop of `predict` (src/predict.py lines 168-173):
keep the first occurrence of each name, tracking the `seen` set. -/
def dedupFirst : List (String × ℚ) → List String → List (String × ℚ)
  | [], _ => []
  | p :: rest, seen =>
    if p.1 ∈ seen then dedupFirst rest seen else p :: dedupFirst rest (p.1 :: seen)

/-- The ranked risk list of `predict` before threshold filtering
(src/predict.py line 174): sort descending, de-dup, truncate to 10. -/
def risksRanked (cfg : Config) (text : String) : List (String × ℚ) :=
  (dedupFirst (sortDesc (risksRaw cfg text)) []).take 10

/-- The raw tone pair list of `predict` (src/predict.py lines 177-181):
tone evidence plus every triggered behavior flag at score 0.85. -/
def tonesRaw (text : String) : List (String × ℚ) :=
  score_tags text TONE_TAGS
  ++ ((behavior_flags text).filter (fun p => p.2)).map (fun p => (p.1, (85/100 : ℚ)))

/-- The ranked tone list of `predict` before threshold filtering
(src/predict.py lines 184-190): sort descending, de-dup, truncate to 8. -/
def tonesRanked (text : String) : List (String × ℚ) :=
  (dedupFirst (sortDesc (tonesRaw text)) []).take 8

/-- The display floor of `predict` (src/predict.py line 210):
`show_min = 0.45 + (threshold - 0.5) * 0.5`. -/
def show_min (threshold : ℚ) : ℚ := 45/100 + (threshold - 5/10) * (5/10)

/-- The result record returned by `predict` (src/predict.py lines 218-229). -/
structure EvalResult where
  confidence_bucket : String
  confidence_score : ℚ
  tone_tags : List (String × ℚ)
  risk_flags : List (String × ℚ)
  behavior_flags : List (String × Bool)
  rule_flags : List (String × Bool)
  rewrite_guidance : List String
  substitution_suggestions : List String
  routing : String
  final_gate_question : String
deriving DecidableEq

/-- `predict` from src/predict.py.  The text argument is `Option String` so
that the Python idiom `raw = text or ""` (mapping `None` and `""` to `""`) is
modelled faithfully. -/
def predict (cfg : Config) (text : Option String) (threshold : ℚ) : EvalResult :=
  let raw := text.getD ""
  let rf := rule_flags cfg.neverSay raw
  let bf := behavior_flags raw
  let ruleTriggered := rf.any (fun p => p.2)
  let behaviorsCount := bf.countP (fun p => p.2)
  let positiveEvidence := score_tags raw POSITIVE_SIGNALS
  let toneEvidence := score_tags raw TONE_TAGS
  let base1 := 42/100 + 8/100 * ((min positiveEvidence.length 5 : ℕ) : ℚ)
    + 5/100 * ((min toneEvidence.length 4 : ℕ) : ℚ)
  let base2 := if ruleTriggered then base1 - 18/100 else base1
  let base3 := if 3 ≤ behaviorsCount then base2 - 6/100 else base2
  let conf := max (5/100) (min base3 (92/100))
  let bucket := confidence_bucket conf
  let sMin := show_min threshold
  { confidence_bucket := bucket
    confidence_score := conf
    tone_tags := (tonesRanked raw).filter (fun p => sMin ≤ p.2)
    risk_flags := (risksRanked cfg raw).filter (fun p => sMin ≤ p.2)
    behavior_flags := bf
    rule_flags := rf
    rewrite_guidance := guidance rf
    substitution_suggestions := substitution_suggestions cfg.substitutions raw
    routing := route_message bucket ruleTriggered behaviorsCount
    final_gate_question := "Does this copy help someone listen to themselves without pressure?" }


/-! ### General lemmas about the helper functions -/

theorem startsB_self_append (l r : List Char) : startsB l (l ++ r) = true := by
  induction l with
  | nil => rfl
  | cons a as ih => simp [startsB, ih]

theorem str_data_append (a b : String) : (a ++ b).data = a.data ++ b.data := by
  cases a; cases b; rfl

theorem str_append_left_cancel {p a b : String} (h : p ++ a = p ++ b) : a = b := by
  have hd : p.data ++ a.data = p.data ++ b.data := by
    rw [← str_data_append, ← str_data_append, h]
  have hab : a.data = b.data := List.append_cancel_left hd
  cases a; cases b; simp only at hab; rw [hab]

theorem mem_insertD {x a : String × ℚ} {l : List (String × ℚ)} :
    a ∈ insertD x l ↔ a = x ∨ a ∈ l := by
  induction l with
  | nil => simp [insertD]
  | cons y ys ih =>
    by_cases hc : y.2 ≤ x.2
    · simp only [insertD, if_pos hc, List.mem_cons]
    · simp only [insertD, if_neg hc, List.mem_cons, ih]
      tauto

theorem pairwise_insertD {x : String × ℚ} {l : List (String × ℚ)}
    (h : l.Pairwise (fun a b => b.2 ≤ a.2)) :
    (insertD x l).Pairwise (fun a b => b.2 ≤ a.2) := by
  induction l with
  | nil => simp [insertD]
  | cons y ys ih =>
    rcases List.pairwise_cons.mp h with ⟨hy, hys⟩
    by_cases hc : y.2 ≤ x.2
    · simp only [insertD, if_pos hc]
      refine List.pairwise_cons.mpr ⟨?_, h⟩
      intro b hb
      rcases List.mem_cons.mp hb with rfl | hb
      · exact hc
      · exact le_trans (hy b hb) hc
    · simp only [insertD, if_neg hc]
      refine List.pairwise_cons.mpr ⟨?_, ih hys⟩
      intro b hb
      rcases mem_insertD.mp hb with rfl | hb
      · exact le_of_not_le hc
      · exact hy b hb

theorem pairwise_sortDesc (l : List (String × ℚ)) :
    (sortDesc l).Pairwise (fun a b => b.2 ≤ a.2) := by
  induction l with
  | nil => simp [sortDesc]
  | cons x xs ih => exact pairwise_insertD ih

theorem mem_sortDesc {a : String × ℚ} {l : List (String × ℚ)} :
    a ∈ sortDesc l ↔ a ∈ l := by
  induction l with
  | nil => simp [sortDesc]
  | cons x xs ih =>
    show a ∈ insertD x (sortDesc xs) ↔ _
    rw [mem_insertD]
    simp [ih]

theorem dedupFirst_sublist : ∀ (l : List (String × ℚ)) (seen : List String),
    List.Sublist (dedupFirst l seen) l := by
  intro l
  induction l with
  | nil => intro seen; simp [dedupFirst]
  | cons p rest ih =>
    intro seen
    by_cases hc : p.1 ∈ seen
    · simpa only [dedupFirst, if_pos hc] using (ih seen).cons p
    · simpa only [dedupFirst, if_neg hc] using (ih (p.1 :: seen)).cons₂ p

theorem risksRanked_sublist (cfg : Config) (text : String) :
    List.Sublist (risksRanked cfg text) (sortDesc (risksRaw cfg text)) :=
  (List.take_sublist _ _).trans (dedupFirst_sublist _ _)

theorem mem_risksRanked_raw {cfg : Config} {text : String} {p : String × ℚ}
    (h : p ∈ risksRanked cfg text) : p ∈ risksRaw cfg text :=
  mem_sortDesc.mp ((risksRanked_sublist cfg text).subset h)

theorem pairwise_risksRanked (cfg : Config) (text : String) :
    (risksRanked cfg text).Pairwise (fun a b => b.2 ≤ a.2) :=
  (pairwise_sortDesc _).sublist (risksRanked_sublist cfg text)

theorem tonesRanked_sublist (text : String) :
    List.Sublist (tonesRanked text) (sortDesc (tonesRaw text)) :=
  (List.take_sublist _ _).trans (dedupFirst_sublist _ _)

theorem mem_tonesRanked_raw {text : String} {p : String × ℚ}
    (h : p ∈ tonesRanked text) : p ∈ tonesRaw text :=
  mem_sortDesc.mp ((tonesRanked_sublist text).subset h)

/-! ### Lemmas about the dict model -/

theorem lookupD_map_replace {m : List (String × Bool)} {k : String} {v : Bool}
    (h : k ∈ m.map Prod.fst) :
    lookupD (m.map (fun p => if p.1 = k then (k, v) else p)) k = some v := by
  induction m with
  | nil => simp at h
  | cons p rest ih =>
    by_cases hk : p.1 = k
    · simp [lookupD, hk]
    · have h2 : k ∈ rest.map Prod.fst := by
        rcases List.mem_cons.mp h with h1 | h1
        · exact absurd h1.symm hk
        · exact h1
      simp only [List.map_cons, if_neg hk]
      simpa [lookupD, hk] using ih h2

theorem lookupD_append_right {m l : List (String × Bool)} {k : String}
    (h : k ∉ m.map Prod.fst) :
    lookupD (m ++ l) k = lookupD l k := by
  induction m with
  | nil => simp
  | cons p rest ih =>
    simp only [List.map_cons, List.mem_cons] at h
    push_neg at h
    have hk : ¬ p.1 = k := fun hh => h.1 hh.symm
    simpa [lookupD, hk] using ih h.2

theorem lookupD_dictInsert_self (m : List (String × Bool)) (k : String) (v : Bool) :
    lookupD (dictInsert m k v) k = some v := by
  by_cases hc : k ∈ m.map Prod.fst
  · rw [dictInsert, if_pos hc]
    exact lookupD_map_replace hc
  · rw [dictInsert, if_neg hc, lookupD_append_right hc]
    simp [lookupD]

theorem lookupD_map_replace_ne {m : List (String × Bool)} {k q : String} {v : Bool}
    (h : q ≠ k) :
    lookupD (m.map (fun p => if p.1 = k then (k, v) else p)) q = lookupD m q := by
  induction m with
  | nil => simp
  | cons p rest ih =>
    by_cases hk : p.1 = k
    · have hkq : ¬ (k = q) := fun hh => h hh.symm
      have hpq : ¬ (p.1 = q) := by rw [hk]; exact hkq
      simp [lookupD, hk, hkq, hpq, ih]
    · by_cases hq : p.1 = q
      · simp [lookupD, hk, hq, h]
      · simp [lookupD, hk, hq, ih]

theorem lookupD_dictInsert_ne {m : List (String × Bool)} {k q : String} {v : Bool}
    (h : q ≠ k) : lookupD (dictInsert m k v) q = lookupD m q := by
  by_cases hc : k ∈ m.map Prod.fst
  · rw [dictInsert, if_pos hc]
    exact lookupD_map_replace_ne h
  · rw [dictInsert, if_neg hc]
    induction m with
    | nil => simp [lookupD, (Ne.symm h : ¬ (k = q))]
    | cons p rest ih =>
      by_cases hq : p.1 = q
      · simp [lookupD, hq]
      · simp only [List.map_cons, List.mem_cons] at hc
        push_neg at hc
        simp [lookupD, hq, ih hc.2]

theorem mem_dictInsert {p : String × Bool} {m : List (String × Bool)} {k : String} {v : Bool}
    (h : p ∈ dictInsert m k v) : p ∈ m ∨ p = (k, v) := by
  by_cases hc : k ∈ m.map Prod.fst
  · rw [dictInsert, if_pos hc] at h
    rcases List.mem_map.mp h with ⟨q, hq, hqe⟩
    by_cases hk : q.1 = k
    · right; rw [← hqe, if_pos hk]
    · left; rw [← hqe, if_neg hk]; exact hq
  · rw [dictInsert, if_neg hc] at h
    simpa using List.mem_append.mp h

theorem mem_foldl_dictInsert {mk : String → String} {f : String → Bool} :
    ∀ (terms : List String) (acc : List (String × Bool)) (p : String × Bool),
      p ∈ terms.foldl (fun m t => dictInsert m (mk t) (f t)) acc →
      p ∈ acc ∨ ∃ t ∈ terms, p = (mk t, f t) := by
  intro terms
  induction terms with
  | nil => intro acc p h; exact Or.inl h
  | cons u ts ih =>
    intro acc p h
    rcases ih (dictInsert acc (mk u) (f u)) p h with h1 | ⟨t, ht, rfl⟩
    · rcases mem_dictInsert h1 with h2 | h2
      · exact Or.inl h2
      · exact Or.inr ⟨u, by simp, h2⟩
    · exact Or.inr ⟨t, by simp [ht], rfl⟩

theorem mem_buildFlags {mk : String → String} {f : String → Bool} {terms : List String}
    {p : String × Bool} (h : p ∈ buildFlags terms mk f) :
    ∃ t ∈ terms, p = (mk t, f t) := by
  rcases mem_foldl_dictInsert terms [] p h with h1 | h1
  · simp at h1
  · exact h1

theorem lookupD_foldl_dictInsert {mk : String → String} {f : String → Bool}
    (inj : ∀ a b, mk a = mk b → a = b) :
    ∀ (terms : List String) (acc : List (String × Bool)) (t : String),
      (t ∈ terms ∨ lookupD acc (mk t) = some (f t)) →
      lookupD (terms.foldl (fun m u => dictInsert m (mk u) (f u)) acc) (mk t) = some (f t) := by
  intro terms
  induction terms with
  | nil =>
    intro acc t h
    rcases h with h | h
    · simp at h
    · exact h
  | cons u ts ih =>
    intro acc t h
    apply ih (dictInsert acc (mk u) (f u)) t
    rcases h with h | h
    · rcases List.mem_cons.mp h with rfl | h2
      · exact Or.inr (lookupD_dictInsert_self _ _ _)
      · exact Or.inl h2
    · by_cases he : mk t = mk u
      · have ht : t = u := inj _ _ he
        subst ht
        exact Or.inr (lookupD_dictInsert_self _ _ _)
      · exact Or.inr (by rw [lookupD_dictInsert_ne he]; exact h)

theorem lookupD_buildFlags {mk : String → String} {f : String → Bool}
    (inj : ∀ a b, mk a = mk b → a = b) {terms : List String} {t : String}
    (h : t ∈ terms) : lookupD (buildFlags terms mk f) (mk t) = some (f t) :=
  lookupD_foldl_dictInsert inj terms [] t (Or.inl h)

/-! ### Keys of the flag dicts -/

theorem map_fst_replace (m : List (String × Bool)) (k : String) (v : Bool) :
    (m.map (fun p => if p.1 = k then (k, v) else p)).map Prod.fst = m.map Prod.fst := by
  induction m with
  | nil => rfl
  | cons p rest ih => by_cases hk : p.1 = k <;> simp [hk, ih]

theorem nodup_keys_dictInsert {m : List (String × Bool)} {k : String} {v : Bool}
    (h : (m.map Prod.fst).Nodup) : ((dictInsert m k v).map Prod.fst).Nodup := by
  by_cases hc : k ∈ m.map Prod.fst
  · rw [dictInsert, if_pos hc, map_fst_replace]
    exact h
  · rw [dictInsert, if_neg hc]
    simp [List.nodup_append, h, hc]

theorem nodup_keys_foldl {mk : String → String} {f : String → Bool} :
    ∀ (terms : List String) (acc : List (String × Bool)),
      (acc.map Prod.fst).Nodup →
      (((terms.foldl (fun m t => dictInsert m (mk t) (f t)) acc)).map Prod.fst).Nodup := by
  intro terms
  induction terms with
  | nil => intro acc h; exact h
  | cons u ts ih => intro acc h; exact ih _ (nodup_keys_dictInsert h)

theorem nodup_keys_buildFlags {mk : String → String} {f : String → Bool}
    (terms : List String) : ((buildFlags terms mk f).map Prod.fst).Nodup :=
  nodup_keys_foldl terms [] (by simp)

theorem countP_key_eq_zero {m : List (String × Bool)} {k : String}
    (h : k ∉ m.map Prod.fst) : m.countP (fun p => p.1 == k) = 0 := by
  induction m with
  | nil => rfl
  | cons p rest ih =>
    simp only [List.map_cons, List.mem_cons] at h
    push_neg at h
    rw [List.countP_cons]
    have hb : (p.1 == k) = false := by simpa using Ne.symm h.1
    rw [hb]
    simpa using ih h.2

theorem countP_key_eq_one {m : List (String × Bool)} {k : String}
    (h : (m.map Prod.fst).Nodup) (hk : k ∈ m.map Prod.fst) :
    m.countP (fun p => p.1 == k) = 1 := by
  induction m with
  | nil => simp at hk
  | cons p rest ih =>
    simp only [List.map_cons, List.nodup_cons] at h
    rw [List.countP_cons]
    by_cases he : p.1 = k
    · have hz : rest.countP (fun p => p.1 == k) = 0 :=
        countP_key_eq_zero (he ▸ h.1)
      simp [hz, he]
    · have hm : k ∈ rest.map Prod.fst := by
        rcases List.mem_cons.mp hk with h1 | h1
        · exact absurd h1.symm he
        · exact h1
      have : (p.1 == k) = false := by simpa using he
      rw [this]
      simpa using ih h.2 hm

theorem mem_keys_of_lookupD {m : List (String × Bool)} {k : String} {v : Bool}
    (h : lookupD m k = some v) : k ∈ m.map Prod.fst := by
  induction m with
  | nil => simp [lookupD] at h
  | cons p rest ih =>
    by_cases hk : p.1 = k
    · simp [hk]
    · rw [lookupD, if_neg hk] at h
      simp [ih h]

theorem blockedKey_inj (a b : String) :
    "blocked_term:" ++ a = "blocked_term:" ++ b → a = b :=
  fun h => str_append_left_cancel h

theorem rule_flags_lookup {never : List String} {text term : String} (h : term ∈ never) :
    lookupD (rule_flags never text) ("blocked_term:" ++ term)
      = some (strHasSub (lowerS text) (lowerS term)) :=
  lookupD_buildFlags blockedKey_inj h

theorem rule_flags_count {never : List String} {text term : String} (h : term ∈ never) :
    (rule_flags never text).countP (fun p => p.1 == "blocked_term:" ++ term) = 1 :=
  countP_key_eq_one (nodup_keys_buildFlags never)
    (mem_keys_of_lookupD (rule_flags_lookup h))

theorem rule_flags_mem {never : List String} {text : String} {p : String × Bool}
    (h : p ∈ rule_flags never text) :
    ∃ t ∈ never, p = ("blocked_term:" ++ t, strHasSub (lowerS text) (lowerS t)) :=
  mem_buildFlags h

theorem behavior_flags_mem {text : String} {p : String × Bool}
    (h : p ∈ behavior_flags text) :
    ∃ t ∈ pressure_terms, p = ("pressure:" ++ t, strHasSub (lowerS text) t) :=
  mem_buildFlags h

/-! ### Score bounds and monotonicity -/

theorem score_of_hits_le (h : ℕ) : score_of_hits h ≤ 92/100 :=
  min_le_right _ _

theorem score_of_hits_mono {a b : ℕ} (hab : a ≤ b) :
    score_of_hits a ≤ score_of_hits b := by
  unfold score_of_hits
  have h1 : ((min a 3 : ℕ) : ℚ) ≤ ((min b 3 : ℕ) : ℚ) :=
    Nat.cast_le.mpr (min_le_min hab le_rfl)
  have h2 : (45:ℚ)/100 + 18/100 * ((min a 3 : ℕ) : ℚ)
      ≤ 45/100 + 18/100 * ((min b 3 : ℕ) : ℚ) := by nlinarith
  exact min_le_min h2 le_rfl

theorem score_tags_mem {text : String} {tagMap : List (String × List String)}
    {p : String × ℚ} (h : p ∈ score_tags text tagMap) :
    ∃ g ∈ tagMap, p.1 = g.1 ∧ 0 < count_hits text g.2 ∧
      p.2 = score_of_hits (count_hits text g.2) := by
  rw [score_tags, mem_sortDesc] at h
  rcases List.mem_filterMap.mp h with ⟨g, hg, he⟩
  by_cases hc : 0 < count_hits text g.2
  · rw [if_pos hc] at he
    rcases Option.some_inj.mp he with rfl
    exact ⟨g, hg, rfl, hc, rfl⟩
  · rw [if_neg hc] at he
    cases he

/-! ### The risk list -/

theorem risksRaw_mem {cfg : Config} {text : String} {p : String × ℚ}
    (h : p ∈ risksRaw cfg text) :
    (p.2 = 99/100 ∧ startsB "blocked_term:".data p.1.data = true)
    ∨ (p.2 = 9/10 ∧ startsB "pressure:".data p.1.data = true) := by
  rcases List.mem_append.mp h with h1 | h1
  · rcases List.mem_map.mp h1 with ⟨q, hq, rfl⟩
    obtain ⟨t, _, rfl⟩ := rule_flags_mem (List.mem_filter.mp hq).1
    left
    refine ⟨rfl, ?_⟩
    rw [str_data_append]
    exact startsB_self_append _ _
  · rcases List.mem_map.mp h1 with ⟨q, hq, rfl⟩
    obtain ⟨t, _, rfl⟩ := behavior_flags_mem (List.mem_filter.mp hq).1
    right
    refine ⟨rfl, ?_⟩
    rw [str_data_append]
    exact startsB_self_append _ _

theorem risksRaw_scores {cfg : Config} {text : String} {p : String × ℚ}
    (h : p ∈ risksRaw cfg text) : p.2 = 99/100 ∨ p.2 = 9/10 := by
  rcases risksRaw_mem h with ⟨h1, _⟩ | ⟨h1, _⟩
  · exact Or.inl h1
  · exact Or.inr h1

/-! ### Threshold filtering -/

theorem filter_floor_mono {l : List (String × ℚ)} {a b : ℚ} (hab : a ≤ b) :
    List.Sublist (l.filter (fun p => b ≤ p.2)) (l.filter (fun p => a ≤ p.2)) := by
  apply List.monotone_filter_right
  intro p hp
  simp only [decide_eq_true_eq] at hp ⊢
  linarith

theorem show_min_mono {a b : ℚ} (h : a ≤ b) : show_min a ≤ show_min b := by
  unfold show_min
  linarith

theorem show_min_le_of_le {t : ℚ} (h : t ≤ 9/10) : show_min t ≤ 13/20 := by
  unfold show_min
  linarith

/-! ### Facts about the empty text -/

theorem hasSub_nil {n : List Char} (h : n ≠ []) : hasSub n [] = false := by
  cases n with
  | nil => exact absurd rfl h
  | cons c t => rfl

theorem lowerS_data_ne_nil {t : String} (h : t ≠ "") : (lowerS t).data ≠ [] := by
  intro hc
  apply h
  have hd : t.data = [] := by simpa [lowerS] using hc
  cases t
  simp only at hd
  rw [hd]

theorem rule_flags_empty_all_false {never : List String}
    (hne : ∀ t ∈ never, t ≠ "") : ∀ p ∈ rule_flags never "", p.2 = false := by
  intro p hp
  obtain ⟨t, ht, rfl⟩ := rule_flags_mem hp
  show strHasSub (lowerS "") (lowerS t) = false
  show hasSub (lowerS t).data (lowerS "").data = false
  have he : (lowerS "").data = [] := rfl
  rw [he]
  exact hasSub_nil (lowerS_data_ne_nil (hne t ht))

theorem any_snd_false {l : List (String × Bool)} (h : ∀ p ∈ l, p.2 = false) :
    l.any (fun p => p.2) = false := by
  rw [List.any_eq_false]
  intro p hp
  simp [h p hp]

theorem filter_snd_nil {l : List (String × Bool)} (h : ∀ p ∈ l, p.2 = false) :
    l.filter (fun p => p.2) = [] := by
  rw [List.filter_eq_nil_iff]
  intro p hp
  simp [h p hp]

/-! ### Projection equations for `predict` -/

theorem predict_rule_flags (cfg : Config) (text : Option String) (th : ℚ) :
    (predict cfg text th).rule_flags = rule_flags cfg.neverSay (text.getD "") := rfl

set_option maxHeartbeats 1000000 in
theorem predict_behavior_flags (cfg : Config) (text : Option String) (th : ℚ) :
    (predict cfg text th).behavior_flags = behavior_flags (text.getD "") := rfl

theorem predict_tone_tags (cfg : Config) (text : Option String) (th : ℚ) :
    (predict cfg text th).tone_tags
      = (tonesRanked (text.getD "")).filter (fun p => show_min th ≤ p.2) := rfl

theorem predict_risk_flags (cfg : Config) (text : Option String) (th : ℚ) :
    (predict cfg text th).risk_flags
      = (risksRanked cfg (text.getD "")).filter (fun p => show_min th ≤ p.2) := rfl

theorem predict_bucket (cfg : Config) (text : Option String) (th : ℚ) :
    (predict cfg text th).confidence_bucket
      = confidence_bucket ((predict cfg text th).confidence_score) := rfl

set_option maxHeartbeats 1000000 in
theorem predict_routing (cfg : Config) (text : Option String) (th : ℚ) :
    (predict cfg text th).routing
      = route_message ((predict cfg text th).confidence_bucket)
          (((predict cfg text th).rule_flags).any (fun p => p.2))
          (((predict cfg text th).behavior_flags).countP (fun p => p.2)) := rfl

theorem predict_confidence_score (cfg : Config) (text : Option String) (th : ℚ) :
    (predict cfg text th).confidence_score
      = max (5/100) (min
          (if 3 ≤ (behavior_flags (text.getD "")).countP (fun p => p.2)
           then (if (rule_flags cfg.neverSay (text.getD "")).any (fun p => p.2)
                 then 42/100
                   + 8/100 * ((min (score_tags (text.getD "") POSITIVE_SIGNALS).length 5 : ℕ) : ℚ)
                   + 5/100 * ((min (score_tags (text.getD "") TONE_TAGS).length 4 : ℕ) : ℚ)
                   - 18/100
                 else 42/100
                   + 8/100 * ((min (score_tags (text.getD "") POSITIVE_SIGNALS).length 5 : ℕ) : ℚ)
                   + 5/100 * ((min (score_tags (text.getD "") TONE_TAGS).length 4 : ℕ) : ℚ))
                - 6/100
           else (if (rule_flags cfg.neverSay (text.getD "")).any (fun p => p.2)
                 then 42/100
                   + 8/100 * ((min (score_tags (text.getD "") POSITIVE_SIGNALS).length 5 : ℕ) : ℚ)
                   + 5/100 * ((min (score_tags (text.getD "") TONE_TAGS).length 4 : ℕ) : ℚ)
                   - 18/100
                 else 42/100
                   + 8/100 * ((min (score_tags (text.getD "") POSITIVE_SIGNALS).length 5 : ℕ) : ℚ)
                   + 5/100 * ((min (score_tags (text.getD "") TONE_TAGS).length 4 : ℕ) : ℚ)))
          (92/100)) := rfl

/-- The three bucket cutoffs of `confidence_bucket`, as an iff table. -/
theorem confidence_bucket_spec (c : ℚ) :
    (confidence_bucket c = "high" ↔ 7/10 ≤ c)
    ∧ (confidence_bucket c = "medium" ↔ (5/10 ≤ c ∧ c < 7/10))
    ∧ (confidence_bucket c = "low" ↔ c < 5/10) := by
  unfold confidence_bucket
  by_cases h1 : (7:ℚ)/10 ≤ c
  · rw [if_pos h1]
    refine ⟨by simp [h1], ?_, ?_⟩
    · constructor
      · intro hh; exact absurd hh (by decide)
      · rintro ⟨_, h2⟩; linarith
    · constructor
      · intro hh; exact absurd hh (by decide)
      · intro h2; linarith
  · rw [if_neg h1]
    by_cases h2 : (5:ℚ)/10 ≤ c
    · rw [if_pos h2]
      refine ⟨?_, ?_, ?_⟩
      · constructor
        · intro hh; exact absurd hh (by decide)
        · intro hg; exact absurd hg h1
      · exact ⟨fun _ => ⟨h2, lt_of_not_le h1⟩, fun _ => rfl⟩
      · constructor
        · intro hh; exact absurd hh (by decide)
        · intro hl; linarith
    · rw [if_neg h2]
      refine ⟨?_, ?_, ?_⟩
      · constructor
        · intro hh; exact absurd hh (by decide)
        · intro hg; exact absurd hg h1
      · constructor
        · intro hh; exact absurd hh (by decide)
        · rintro ⟨hg, _⟩; exact absurd hg h2
      · exact ⟨fun _ => lt_of_not_le h2, fun _ => rfl⟩

/-! ### Claims -/

/-- C1 counterexample.  The claim states that the value of a rule flag is true iff
the normalized term (trimmed, lower-cased, whitespace-collapsed) is a
substring of the normalized text.  For the rule set `["a b"]` and the text
`"a  b"` (two spaces) the normalized containment holds, but `rule_flags`
only lower-cases (no whitespace collapsing), so the flag is false. -/
theorem C1_rule_flags_cex :
    lookupD (rule_flags ["a b"] "a  b") "blocked_term:a b"
      ≠ some (hasSub (normStr "a b").data (normStr "a  b").data) := by decide

/-- C1 amended: for every rule set and text, the rule-flag mapping contains
exactly one key `blocked_term:<term>` for every term in the never-say list,
regardless of trigger state; every key is of that form; and the value is
true iff the lower-cased term is a substring of the lower-cased raw text
(no trimming or whitespace collapsing). -/
theorem C1_rule_flags_amended (never : List String) (text term : String)
    (h : term ∈ never) :
    (rule_flags never text).countP (fun p => p.1 == "blocked_term:" ++ term) = 1
    ∧ lookupD (rule_flags never text) ("blocked_term:" ++ term)
        = some (strHasSub (lowerS text) (lowerS term))
    ∧ ∀ p ∈ rule_flags never text, ∃ t ∈ never, p.1 = "blocked_term:" ++ t :=
  ⟨rule_flags_count h, rule_flags_lookup h,
   fun p hp => by
     obtain ⟨t, ht, rfl⟩ := rule_flags_mem hp
     exact ⟨t, ht, rfl⟩⟩

/-- C1 witness: the amended statement evaluated on a concrete rule set. -/
theorem C1_rule_flags_witness :
    ("crazy" ∈ ["crazy", "lazy"])
    ∧ ((rule_flags ["crazy", "lazy"] "so CRAZY").countP
          (fun p => p.1 == "blocked_term:" ++ "crazy") = 1
       ∧ lookupD (rule_flags ["crazy", "lazy"] "so CRAZY") ("blocked_term:" ++ "crazy")
           = some (strHasSub (lowerS "so CRAZY") (lowerS "crazy"))
       ∧ ∀ p ∈ rule_flags ["crazy", "lazy"] "so CRAZY",
           ∃ t ∈ ["crazy", "lazy"], p.1 = "blocked_term:" ++ t) :=
  ⟨by decide, C1_rule_flags_amended ["crazy", "lazy"] "so CRAZY" "crazy" (by decide)⟩

/-- C3: the per-tag signal score is `0.45 + 0.18·min(hits,3)` capped at 0.92,
yielding 0.45 / 0.63 / 0.81 / 0.92 for 0 / 1 / 2 / 3-or-more hits, is
monotone in the hit count, bounded by the fixed cap 0.92 < 1, and
`_score_tags` emits exactly this score for every tag with a positive hit
count. -/
theorem C3_tag_score_curve (text : String) (tagMap : List (String × List String)) :
    score_of_hits 0 = 45/100 ∧ score_of_hits 1 = 63/100 ∧ score_of_hits 2 = 81/100
    ∧ (∀ h, 3 ≤ h → score_of_hits h = 92/100)
    ∧ (∀ a b, a ≤ b → score_of_hits a ≤ score_of_hits b)
    ∧ (∀ h, score_of_hits h ≤ 92/100)
    ∧ ((92:ℚ)/100 < 1)
    ∧ (∀ p ∈ score_tags text tagMap, ∃ g ∈ tagMap, p.1 = g.1
        ∧ 0 < count_hits text g.2 ∧ p.2 = score_of_hits (count_hits text g.2)) := by
  refine ⟨by norm_num [score_of_hits], by norm_num [score_of_hits],
    by norm_num [score_of_hits], ?_, fun a b hab => score_of_hits_mono hab,
    score_of_hits_le, by norm_num, fun p hp => score_tags_mem hp⟩
  intro h hh
  rw [score_of_hits, min_eq_right hh]
  norm_num

/-- C3 witness: the 3-or-more-hits case and monotonicity evaluated
concretely. -/
theorem C3_tag_score_witness :
    (3 ≤ 7) ∧ score_of_hits 7 = 92/100 :=
  ⟨by decide, (C3_tag_score_curve "" []).2.2.2.1 7 (by decide)⟩

/-- C9: substitution suggestions contain exactly one term-to-replacement
hint per substitution-map term whose lower-cased form occurs in the
lower-cased raw text, in map iteration order (the hint list is a sublist of
the map-ordered hint images); no match yields the empty list; and
the crazy-to-intense map with the sample text of the claim yields that
hint. -/
theorem C9_substitution_hints (subs : List (String × String)) (text : String) :
    substitution_suggestions subs text
      = (subs.filter (fun bg => strHasSub (lowerS text) (lowerS bg.1))).map
          (fun bg => "Replace **" ++ bg.1 ++ "** → " ++ bg.2)
    ∧ (substitution_suggestions subs text).length
        = subs.countP (fun bg => strHasSub (lowerS text) (lowerS bg.1))
    ∧ List.Sublist (substitution_suggestions subs text)
        (subs.map (fun bg => "Replace **" ++ bg.1 ++ "** → " ++ bg.2))
    ∧ ((∀ bg ∈ subs, strHasSub (lowerS text) (lowerS bg.1) = false) →
        substitution_suggestions subs text = [])
    ∧ substitution_suggestions [("crazy", "intense")] "that\x27s crazy"
        = ["Replace **crazy** → intense"] := by
  refine ⟨rfl, ?_, ?_, ?_, by decide⟩
  · simp [substitution_suggestions, List.countP_eq_length_filter]
  · exact (List.filter_sublist _).map _
  · intro h
    rw [substitution_suggestions, List.filter_eq_nil_iff.mpr
      (fun bg hbg => by simp [h bg hbg])]
    rfl

/-- C9 witness: the no-match case evaluated concretely. -/
theorem C9_substitution_witness :
    (∀ bg ∈ ([("crazy", "intense")] : List (String × String)),
        strHasSub (lowerS "calm words") (lowerS bg.1) = false)
    ∧ substitution_suggestions [("crazy", "intense")] "calm words" = [] :=
  ⟨by decide,
   (C9_substitution_hints [("crazy", "intense")] "calm words").2.2.2.1 (by decide)⟩

/-- C8 counterexample.  The claim states that an out-of-range sensitivity
threshold is clamped into [0.20, 0.90] before use, so the result would
equal the result at the nearest in-range threshold.  With threshold 2 the
code computes floor 0.45 + 1.5·0.5 = 1.2 and filters out the risk entry
that survives at the nearest in-range threshold 0.90, so the results
differ. -/
theorem C8_threshold_cex :
    (predict ⟨[], []⟩ (some "must") 2).risk_flags = []
    ∧ (predict ⟨[], []⟩ (some "must") (9/10)).risk_flags = [("pressure:must", 9/10)]
    ∧ predict ⟨[], []⟩ (some "must") 2 ≠ predict ⟨[], []⟩ (some "must") (9/10) := by
  have hr : risksRanked ⟨[], []⟩ "must" = [("pressure:must", 9/10)] := by
    have h1 : rule_flags [] "must" = [] := by decide
    have h2 : behavior_flags "must" = [("pressure:must", true), ("pressure:now", false),
        ("pressure:fix", false), ("pressure:urgent", false),
        ("pressure:immediately", false), ("pressure:push through", false),
        ("pressure:should", false)] := by decide
    have h3 : startsWithS "pressure:must" "pressure" = true := by decide
    rw [risksRanked, risksRaw, h1, h2]
    simp [h3, List.filter_cons, List.filter_nil, sortDesc, insertD, dedupFirst]
  have e1 : (predict ⟨[], []⟩ (some "must") 2).risk_flags = [] := by
    rw [predict_risk_flags]
    simp only [Option.getD_some]
    rw [hr]
    norm_num [show_min, List.filter_cons]
  have e2 : (predict ⟨[], []⟩ (some "must") (9/10)).risk_flags
      = [("pressure:must", 9/10)] := by
    rw [predict_risk_flags]
    simp only [Option.getD_some]
    rw [hr]
    norm_num [show_min, List.filter_cons]
  refine ⟨e1, e2, fun he => ?_⟩
  rw [he, e2] at e1
  exact List.cons_ne_nil _ _ e1

/-- C2: the overall confidence equals 0.42 plus 0.08 per distinct
positive-trait group matched (at most 5) plus 0.05 per distinct tone-tag
group matched (at most 4), minus 0.18 if any rule flag triggered, minus
0.06 if at least 3 behavior flags triggered, clamped to [0.05, 0.92]; and
the bucket is high iff the score is at least 0.70, medium iff it is in
[0.50, 0.70), low iff it is below 0.50. -/
theorem C2_confidence_formula (cfg : Config) (text : Option String) (th : ℚ) :
    (predict cfg text th).confidence_score
      = max (5/100) (min (42/100
          + 8/100 * ((min (score_tags (text.getD "") POSITIVE_SIGNALS).length 5 : ℕ) : ℚ)
          + 5/100 * ((min (score_tags (text.getD "") TONE_TAGS).length 4 : ℕ) : ℚ)
          - (if (rule_flags cfg.neverSay (text.getD "")).any (fun p => p.2)
             then (18:ℚ)/100 else 0)
          - (if 3 ≤ (behavior_flags (text.getD "")).countP (fun p => p.2)
             then (6:ℚ)/100 else 0))
          (92/100))
    ∧ 5/100 ≤ (predict cfg text th).confidence_score
    ∧ (predict cfg text th).confidence_score ≤ 92/100
    ∧ ((predict cfg text th).confidence_bucket = "high"
        ↔ 7/10 ≤ (predict cfg text th).confidence_score)
    ∧ ((predict cfg text th).confidence_bucket = "medium"
        ↔ (5/10 ≤ (predict cfg text th).confidence_score
           ∧ (predict cfg text th).confidence_score < 7/10))
    ∧ ((predict cfg text th).confidence_bucket = "low"
        ↔ (predict cfg text th).confidence_score < 5/10) := by
  refine ⟨?_, ?_, ?_, ?_, ?_, ?_⟩
  · rw [predict_confidence_score]
    split_ifs <;> ring_nf
  · rw [predict_confidence_score]
    exact le_max_left _ _
  · rw [predict_confidence_score]
    exact max_le (by norm_num) (min_le_right _ _)
  · rw [predict_bucket]
    exact (confidence_bucket_spec _).1
  · rw [predict_bucket]
    exact (confidence_bucket_spec _).2.1
  · rw [predict_bucket]
    exact (confidence_bucket_spec _).2.2

/-- C4: the risk list is built by scoring every triggered rule flag at 0.99
and every triggered pressure/shame/urgency behavior flag at 0.90, sorting
by score descending, de-duplicating by name keeping the first occurrence,
and truncating to 10 entries; every raw entry is a 0.99 rule entry (key
prefixed `blocked_term:`) or a 0.90 behavior entry (key prefixed
`pressure:`); the final list is sorted by score descending, so no
behavior-derived entry (0.90) ever precedes a rule-derived entry (0.99). -/
theorem C4_risk_ranking (cfg : Config) (text : String) :
    risksRanked cfg text = (dedupFirst (sortDesc (risksRaw cfg text)) []).take 10
    ∧ (∀ p ∈ risksRaw cfg text,
        (p.2 = 99/100 ∧ startsB "blocked_term:".data p.1.data = true)
        ∨ (p.2 = 9/10 ∧ startsB "pressure:".data p.1.data = true))
    ∧ (risksRanked cfg text).Pairwise (fun a b => b.2 ≤ a.2)
    ∧ (risksRanked cfg text).Pairwise (fun a b => a.2 = 9/10 → b.2 ≠ 99/100)
    ∧ (risksRanked cfg text).length ≤ 10 := by
  refine ⟨rfl, fun p hp => risksRaw_mem hp, pairwise_risksRanked cfg text, ?_, ?_⟩
  · refine (pairwise_risksRanked cfg text).imp ?_
    intro a b hle ha hb
    rw [ha, hb] at hle
    norm_num at hle
  · rw [risksRanked]
    exact List.length_take_le _ _

/-- C4 witness: the raw-entry characterization evaluated on a concrete
rule set and text. -/
theorem C4_risk_witness :
    (("blocked_term:crazy", (99:ℚ)/100) ∈ risksRaw ⟨["crazy"], []⟩ "crazy must")
    ∧ (((("blocked_term:crazy", (99:ℚ)/100) : String × ℚ).2 = 99/100
        ∧ startsB "blocked_term:".data ("blocked_term:crazy" : String).data = true)
       ∨ ((("blocked_term:crazy", (99:ℚ)/100) : String × ℚ).2 = 9/10
        ∧ startsB "pressure:".data ("blocked_term:crazy" : String).data = true)) := by
  have hm : (("blocked_term:crazy", (99:ℚ)/100) ∈ risksRaw ⟨["crazy"], []⟩ "crazy must") := by
    have h1 : rule_flags ["crazy"] "crazy must" = [("blocked_term:crazy", true)] := by decide
    rw [risksRaw, h1]
    simp [List.filter_cons, List.filter_nil]
  exact ⟨hm, (C4_risk_ranking ⟨["crazy"], []⟩ "crazy must").2.1 _ hm⟩

/-- C5: the display floor is `0.45 + (threshold - 0.50)·0.5`; the tone and
risk lists of the result are the ranked/truncated lists filtered to scores
at or above the floor; and raising the threshold shrinks (as a sublist,
hence as a subset and in length) both surfaced lists. -/
theorem C5_threshold_filter (cfg : Config) (text : Option String) (t1 t2 : ℚ)
    (h : t1 ≤ t2) :
    show_min t2 = 45/100 + (t2 - 5/10) * (5/10)
    ∧ (predict cfg text t2).tone_tags
        = (tonesRanked (text.getD "")).filter (fun p => show_min t2 ≤ p.2)
    ∧ (predict cfg text t2).risk_flags
        = (risksRanked cfg (text.getD "")).filter (fun p => show_min t2 ≤ p.2)
    ∧ List.Sublist (predict cfg text t2).tone_tags (predict cfg text t1).tone_tags
    ∧ List.Sublist (predict cfg text t2).risk_flags (predict cfg text t1).risk_flags
    ∧ (predict cfg text t2).tone_tags.length ≤ (predict cfg text t1).tone_tags.length
    ∧ (predict cfg text t2).risk_flags.length ≤ (predict cfg text t1).risk_flags.length := by
  have hm := show_min_mono h
  have hts : List.Sublist (predict cfg text t2).tone_tags (predict cfg text t1).tone_tags := by
    rw [predict_tone_tags, predict_tone_tags]
    exact filter_floor_mono hm
  have hrs : List.Sublist (predict cfg text t2).risk_flags (predict cfg text t1).risk_flags := by
    rw [predict_risk_flags, predict_risk_flags]
    exact filter_floor_mono hm
  exact ⟨rfl, predict_tone_tags cfg text t2, predict_risk_flags cfg text t2,
    hts, hrs, hts.length_le, hrs.length_le⟩

/-- C5 witness: threshold monotonicity applied at concrete thresholds. -/
theorem C5_threshold_witness :
    ((1:ℚ)/2 ≤ 7/10)
    ∧ List.Sublist (predict ⟨[], []⟩ (some "must") (7/10)).tone_tags
        (predict ⟨[], []⟩ (some "must") (1/2)).tone_tags :=
  ⟨by norm_num,
   (C5_threshold_filter ⟨[], []⟩ (some "must") (1/2) (7/10) (by norm_num)).2.2.2.1⟩

/-- C6: routing is a strict-priority decision table over (bucket, rule
trigger, behavior count): rule trigger wins; then high bucket with at least
one behavior flag; then high-or-medium bucket; otherwise the low message —
and those four messages are the only possible routing values, and the
routing field of the result is exactly `route_message` of its bucket,
rule-trigger state and behavior count. -/
theorem C6_routing_table (b : String) (rt : Bool) (bc : ℕ) :
    (rt = true → route_message b rt bc
      = "Rule-triggered: revise language first (remove pressure/fixing/hustle). Then re-check.")
    ∧ (rt = false → b = "high" → 1 ≤ bc → route_message b rt bc
      = "High confidence: show tone behaviors + targeted suggestions. Human approves final copy.")
    ∧ (rt = false → (b = "high" ∨ b = "medium") → ¬(b = "high" ∧ 1 ≤ bc) →
        route_message b rt bc
      = "Medium confidence: show top tags + ask 2 clarifying questions before recommending edits.")
    ∧ (rt = false → ¬(b = "high" ∨ b = "medium") → route_message b rt bc
      = "Low confidence: insufficient signal. Ask for audience + intent + channel. Suggest substitutions.")
    ∧ (route_message b rt bc
        = "Rule-triggered: revise language first (remove pressure/fixing/hustle). Then re-check."
      ∨ route_message b rt bc
        = "High confidence: show tone behaviors + targeted suggestions. Human approves final copy."
      ∨ route_message b rt bc
        = "Medium confidence: show top tags + ask 2 clarifying questions before recommending edits."
      ∨ route_message b rt bc
        = "Low confidence: insufficient signal. Ask for audience + intent + channel. Suggest substitutions.")
    ∧ (∀ (cfg : Config) (text : Option String) (th : ℚ),
        (predict cfg text th).routing
          = route_message ((predict cfg text th).confidence_bucket)
              (((predict cfg text th).rule_flags).any (fun p => p.2))
              (((predict cfg text th).behavior_flags).countP (fun p => p.2))) := by
  refine ⟨?_, ?_, ?_, ?_, ?_, fun cfg text th => predict_routing cfg text th⟩
  · rintro rfl
    rfl
  · rintro rfl rfl hbc
    rw [route_message, if_neg (by simp), if_pos ⟨rfl, hbc⟩]
  · rintro rfl hor hno
    rw [route_message, if_neg (by simp), if_neg hno, if_pos hor]
  · rintro rfl hor
    rw [route_message, if_neg (by simp), if_neg ?_, if_neg hor]
    intro ⟨hb, _⟩
    exact hor (Or.inl hb)
  · rw [route_message]
    split_ifs
    · exact Or.inl rfl
    · exact Or.inr (Or.inl rfl)
    · exact Or.inr (Or.inr (Or.inl rfl))
    · exact Or.inr (Or.inr (Or.inr rfl))

/-- C6 witness: the rule-trigger priority evaluated concretely. -/
theorem C6_routing_witness :
    (true = true) ∧ route_message "low" true 0
      = "Rule-triggered: revise language first (remove pressure/fixing/hustle). Then re-check." :=
  ⟨rfl, (C6_routing_table "low" true 0).1 rfl⟩

/-- C7: evaluating the empty text (or a null text, which `text or ""` maps
to the empty string) never fails and yields all-false rule flags (for any
rule set whose banned terms are non-empty strings), all-false behavior
flags, bucket low, the insufficient-signal routing, and empty tone and
risk lists, at every threshold. -/
theorem C7_empty_text (cfg : Config) (th : ℚ) (text : Option String)
    (hne : ∀ t ∈ cfg.neverSay, t ≠ "") (htext : text = none ∨ text = some "") :
    (∀ p ∈ (predict cfg text th).rule_flags, p.2 = false)
    ∧ (∀ p ∈ (predict cfg text th).behavior_flags, p.2 = false)
    ∧ (predict cfg text th).confidence_bucket = "low"
    ∧ (predict cfg text th).routing
      = "Low confidence: insufficient signal. Ask for audience + intent + channel. Suggest substitutions."
    ∧ (predict cfg text th).tone_tags = []
    ∧ (predict cfg text th).risk_flags = [] := by
  have hraw : text.getD "" = "" := by rcases htext with rfl | rfl <;> rfl
  have hrf : ∀ p ∈ rule_flags cfg.neverSay "", p.2 = false :=
    rule_flags_empty_all_false hne
  have hrt : (rule_flags cfg.neverSay "").any (fun p => p.2) = false := any_snd_false hrf
  have hbf : ∀ p ∈ behavior_flags "", p.2 = false := by decide
  have hbc : (behavior_flags "").countP (fun p => p.2) = 0 := by decide
  have hP : score_tags "" POSITIVE_SIGNALS = [] := by decide
  have hT : score_tags "" TONE_TAGS = [] := by decide
  have hscore : (predict cfg text th).confidence_score = 42/100 := by
    rw [predict_confidence_score, hraw, hP, hT, hrt, hbc]
    norm_num [min_def, max_def]
  have hbucket : (predict cfg text th).confidence_bucket = "low" := by
    rw [predict_bucket, hscore]
    unfold confidence_bucket
    rw [if_neg (by norm_num), if_neg (by norm_num)]
  have hrisk : (predict cfg text th).risk_flags = [] := by
    rw [predict_risk_flags, hraw]
    have hraw0 : risksRaw cfg "" = [] := by
      rw [risksRaw]
      have h1 : (rule_flags cfg.neverSay "").filter (fun p => p.2) = [] :=
        filter_snd_nil hrf
      have h2 : (behavior_flags "").filter (fun p =>
          p.2 && (startsWithS p.1 "pressure" || startsWithS p.1 "shame" ||
            startsWithS p.1 "urgency")) = [] := by decide
      rw [h1, h2]
      rfl
    rw [risksRanked, hraw0]
    rfl
  have htone : (predict cfg text th).tone_tags = [] := by
    rw [predict_tone_tags, hraw]
    have ht0 : tonesRanked "" = [] := by decide
    rw [ht0]
    rfl
  refine ⟨?_, ?_, hbucket, ?_, htone, hrisk⟩
  · rw [predict_rule_flags, hraw]
    exact hrf
  · rw [predict_behavior_flags, hraw]
    exact hbf
  · rw [predict_routing, hbucket, predict_rule_flags, predict_behavior_flags, hraw,
      hrt, hbc]
    decide

/-- C7 witness: the empty-text behavior evaluated on a concrete rule set. -/
theorem C7_empty_witness :
    ((∀ t ∈ (["crazy"] : List String), t ≠ "")
      ∧ ((none : Option String) = none ∨ (none : Option String) = some ""))
    ∧ ((∀ p ∈ (predict ⟨["crazy"], []⟩ none (1/2)).rule_flags, p.2 = false)
       ∧ (∀ p ∈ (predict ⟨["crazy"], []⟩ none (1/2)).behavior_flags, p.2 = false)
       ∧ (predict ⟨["crazy"], []⟩ none (1/2)).confidence_bucket = "low"
       ∧ (predict ⟨["crazy"], []⟩ none (1/2)).routing
         = "Low confidence: insufficient signal. Ask for audience + intent + channel. Suggest substitutions."
       ∧ (predict ⟨["crazy"], []⟩ none (1/2)).tone_tags = []
       ∧ (predict ⟨["crazy"], []⟩ none (1/2)).risk_flags = []) :=
  ⟨⟨by decide, Or.inl rfl⟩,
   C7_empty_text ⟨["crazy"], []⟩ (1/2) none (by decide) (Or.inl rfl)⟩

/-- C8 amended: `predict` does not clamp the threshold — the display floor
is computed from the supplied threshold by the same formula even outside
[0.20, 0.90] (so a threshold above 0.90 yields a floor strictly above every
in-range floor), and the evaluation is still total: the tone and risk lists
are the ranked lists filtered at that unclamped floor. -/
theorem C8_no_clamp (cfg : Config) (text : Option String) (th : ℚ)
    (hout : 9/10 < th) :
    show_min (9/10) < show_min th
    ∧ (predict cfg text th).risk_flags
        = (risksRanked cfg (text.getD "")).filter (fun p => show_min th ≤ p.2)
    ∧ (predict cfg text th).tone_tags
        = (tonesRanked (text.getD "")).filter (fun p => show_min th ≤ p.2) := by
  refine ⟨?_, predict_risk_flags cfg text th, predict_tone_tags cfg text th⟩
  unfold show_min
  linarith

/-- C8 witness: the unclamped floor evaluated at the out-of-range
threshold 2. -/
theorem C8_no_clamp_witness :
    ((9:ℚ)/10 < 2) ∧ show_min (9/10) < show_min 2 :=
  ⟨by norm_num, (C8_no_clamp ⟨[], []⟩ (some "must") 2 (by norm_num)).1⟩

/-- C10 (implicit): for thresholds inside the documented domain
[0.20, 0.90] the display floor is at most 0.65 while every risk score is
0.90 or 0.99, so the filter removes nothing: the surfaced risk list equals
the ranked risk list and is identical for all in-range thresholds. -/
theorem C10_risks_threshold_independent (cfg : Config) (text : Option String)
    (th th' : ℚ) (h1 : 1/5 ≤ th) (h2 : th ≤ 9/10) (h1' : 1/5 ≤ th')
    (h2' : th' ≤ 9/10) :
    (predict cfg text th).risk_flags = risksRanked cfg (text.getD "")
    ∧ (predict cfg text th).risk_flags = (predict cfg text th').risk_flags := by
  have key : ∀ t : ℚ, t ≤ 9/10 →
      (predict cfg text t).risk_flags = risksRanked cfg (text.getD "") := by
    intro t ht
    rw [predict_risk_flags]
    apply List.filter_eq_self.mpr
    intro p hp
    have hsc := risksRaw_scores (mem_risksRanked_raw hp)
    have hf : show_min t ≤ 13/20 := show_min_le_of_le ht
    simp only [decide_eq_true_eq]
    rcases hsc with hh | hh <;> rw [hh] <;> linarith
  exact ⟨key th h2, (key th h2).trans (key th' h2').symm⟩

/-- C10 witness: threshold independence of the risk list evaluated at the
extreme in-range thresholds. -/
theorem C10_risks_witness :
    ((1:ℚ)/5 ≤ 1/2)
    ∧ (predict ⟨["crazy"], []⟩ (some "crazy must") (1/2)).risk_flags
        = (predict ⟨["crazy"], []⟩ (some "crazy must") (9/10)).risk_flags :=
  ⟨by norm_num,
   (C10_risks_threshold_independent ⟨["crazy"], []⟩ (some "crazy must") (1/2) (9/10)
     (by norm_num) (by norm_num) (by norm_num) (by norm_num)).2⟩
